import Mathlib

/-!
Verification of the `useRouteQuery` synchronization engine
(`src/useRouteQuery.ts`, `src/utils/areQueryValuesEqual.ts`).

The embedding models the wire values exchanged with the route query
(`SetQueryValue` / `GetQueryValue`: string, null, undefined, or a list
of those), the per-instance cache (`cachedValue`, `cachedRawValue`),
the shared per-router pending-write map (`queriesQueue`), the
`nextTick`-deferred flush, and the `watch` reaction to external query
changes.  JavaScript's `T | undefined` values flow through the model as
`Option T`, with `none` standing for `undefined`.
-/

namespace UseRouteQuery

/-- A scalar query value as it appears in `LocationQueryValueRaw`
(minus `number`, which the library's `SetQueryValue` excludes):
a string, `null`, or `undefined`. -/
inductive RawScalar
  | str (s : String)
  | null
  | undefined
deriving DecidableEq, Repr

/-- A `SetQueryValue` / `GetQueryValue`: a scalar or an ordered list of
scalars.  The absent state of a query field is the scalar `undefined`
(an uninitialized `let cachedRawValue` and a deleted query key both read
as `undefined` in the source). -/
inductive RawValue
  | scalar (s : RawScalar)
  | list (xs : List RawScalar)
deriving DecidableEq, Repr

/-- The absent marker: JavaScript `undefined` at the top level. -/
def absent : RawValue := .scalar .undefined

/-- `areQueryValuesEqual` from `src/utils/areQueryValuesEqual.ts`:
if both arguments are arrays, they are equal when the lengths match and
`a.every((val, idx) => val === b[idx])`; under the length guard that is
element-wise strict equality, modelled as `all` over `a.zip b`.
Otherwise the result is `a === b`, which is scalar strict equality when
both are scalars and `false` when exactly one side is an array (two
distinct array references are never `===`; the both-array case was
already taken by the first branch). -/
def areQueryValuesEqual : RawValue → RawValue → Bool
  | .list a, .list b =>
      if a.length ≠ b.length then false
      else (a.zip b).all fun p => p.1 == p.2
  | .scalar a, .scalar b => a == b
  | _, _ => false

theorem rawScalar_beq_refl (a : RawScalar) : (a == a) = true := by
  simp

theorem rawScalar_beq_symm (a b : RawScalar) : (a == b) = (b == a) := by
  by_cases h : a = b
  · subst h; rfl
  · have h1 : (a == b) = false := by
      simp [h]
    have h2 : (b == a) = false := by
      simp [Ne.symm h]
    rw [h1, h2]

theorem zip_all_beq_refl (a : List RawScalar) :
    ((a.zip a).all fun p => p.1 == p.2) = true := by
  induction a with
  | nil => rfl
  | cons x xs ih => simp [List.zip_cons_cons, List.all_cons, ih]

theorem zip_all_beq_symm (a : List RawScalar) :
    ∀ b : List RawScalar,
      ((a.zip b).all fun p => p.1 == p.2) =
      ((b.zip a).all fun p => p.1 == p.2) := by
  induction a with
  | nil => intro b; cases b <;> rfl
  | cons x xs ih =>
      intro b
      cases b with
      | nil => rfl
      | cons y ys =>
          simp only [List.zip_cons_cons, List.all_cons]
          rw [rawScalar_beq_symm x y, ih ys]

theorem areQueryValuesEqual_refl (a : RawValue) :
    areQueryValuesEqual a a = true := by
  cases a with
  | scalar s => simp [areQueryValuesEqual]
  | list xs => simp [areQueryValuesEqual, zip_all_beq_refl]

theorem areQueryValuesEqual_symm (a b : RawValue) :
    areQueryValuesEqual a b = areQueryValuesEqual b a := by
  cases a with
  | scalar sa =>
      cases b with
      | scalar sb => simpa [areQueryValuesEqual] using rawScalar_beq_symm sa sb
      | list ys => rfl
  | list xs =>
      cases b with
      | scalar sb => rfl
      | list ys =>
          simp only [areQueryValuesEqual]
          by_cases h : xs.length = ys.length
          · rw [if_neg (by simpa using h), if_neg (by simpa using h.symm),
              zip_all_beq_symm]
          · rw [if_pos (by simpa using h), if_pos (by simpa using Ne.symm h)]

/-- Claim C4: the Equality Oracle is symmetric; lists of different
length are never equal; `equal(absent, absent)` is true;
`equal(absent, "")` is false; and a list is never equal to a
non-list. -/
theorem c4_equality_oracle :
    (∀ a b : RawValue, areQueryValuesEqual a b = areQueryValuesEqual b a)
    ∧ (∀ xs ys : List RawScalar, xs.length ≠ ys.length →
        areQueryValuesEqual (.list xs) (.list ys) = false)
    ∧ areQueryValuesEqual absent absent = true
    ∧ areQueryValuesEqual absent (.scalar (.str "")) = false
    ∧ (∀ (xs : List RawScalar) (s : RawScalar),
        areQueryValuesEqual (.list xs) (.scalar s) = false
        ∧ areQueryValuesEqual (.scalar s) (.list xs) = false) := by
  refine ⟨areQueryValuesEqual_symm, ?_, rfl, rfl, fun xs s => ⟨rfl, rfl⟩⟩
  intro xs ys h
  simp [areQueryValuesEqual, h]

/-- Witness for C4 at concrete inputs, discharging the
length-difference hypothesis. -/
theorem c4_equality_oracle_witness :
    areQueryValuesEqual (.list []) (.list [.null]) = false :=
  c4_equality_oracle.2.1 [] [.null] (by decide)

/-- The navigation mode passed to the router: `options.mode`,
defaulting to `"push"`. -/
inductive Mode
  | push
  | replace
deriving DecidableEq, Repr

/-- The per-instance configuration of `useRouteQuery(name, defaultValue,
options)`.  `defaultValue` is `toValue` of the `MaybeRefOrGetter`
argument (a pure getter evaluates to the same value on every read, so it
is modelled as the value; `none` is JS `undefined`, the omitted
default).  `fromRaw` is `transformFromQuery` (its JS result may be
`undefined`, hence `Option T`); `toRaw` is `transformToQuery`, applied
to the JS argument of `set`, which is `T`-or-`undefined`. -/
structure SyncConfig (T : Type) where
  name : String
  defaultValue : Option T
  mode : Mode
  fromRaw : RawValue → Option T
  toRaw : Option T → RawValue

/-- The per-instance cache: `cachedValue : T | undefined` and
`cachedRawValue : SetQueryValue`.  `none` is JS `undefined`, which is
also the UNSET sentinel tested by `cachedValue !== undefined`. -/
structure SyncEntry (T : Type) where
  cachedValue : Option T
  cachedRawValue : RawValue

/-- One live `useRouteQuery` instance: its configuration, its cache, a
count of `trigger()` notifications it has fired, and whether its
enclosing effect scope has been disposed (which stops its `watch`er). -/
structure Inst (T : Type) where
  cfg : SyncConfig T
  st : SyncEntry T
  triggers : Nat
  disposed : Bool

/-- Query objects and the pending-write `Map` are association lists
with unique keys; `qlookup` is property access / `Map.get`. -/
def qlookup : List (String × RawValue) → String → Option RawValue
  | [], _ => none
  | (a, v) :: rest, k => if a == k then some v else qlookup rest k

/-- `Map.set` / object property assignment on a unique-key association
list: replace the value in place if the key exists, otherwise append. -/
def mapSet : List (String × RawValue) → String → RawValue →
    List (String × RawValue)
  | [], k, v => [(k, v)]
  | (a, u) :: rest, k, v =>
      if a == k then (a, v) :: rest else (a, u) :: mapSet rest k v

/-- The flush's merge: `newQueries = { ...query }` followed by
`newQueries[key] = value` for each pending entry in insertion order. -/
def overlay (query pend : List (String × RawValue)) :
    List (String × RawValue) :=
  pend.foldl (fun acc kv => mapSet acc kv.1 kv.2) query

/-- The world of one Document Store (router): the instances sharing it,
the shared `queriesQueue`, the current `route.query`, the FIFO list of
`nextTick` callbacks still pending (each recorded as the index of the
instance whose `set` scheduled it), and the log of `router[mode]`
commits performed so far. -/
structure World (T : Type) where
  insts : List (Inst T)
  queue : List (String × RawValue)
  query : List (String × RawValue)
  scheduled : List Nat
  commits : List (Mode × List (String × RawValue))

/-- The cache seeding at construction: if `name in route.query`, cache
the raw value and its transform; otherwise both locals stay
`undefined` (the raw side reads as the absent marker). -/
def seedEntry {T : Type} (cfg : SyncConfig T)
    (query : List (String × RawValue)) : SyncEntry T :=
  match qlookup query cfg.name with
  | some v => { cachedValue := cfg.fromRaw v, cachedRawValue := v }
  | none => { cachedValue := none, cachedRawValue := absent }

/-- A freshly constructed instance over the given query. -/
def mkInst {T : Type} (cfg : SyncConfig T)
    (query : List (String × RawValue)) : Inst T :=
  { cfg := cfg, st := seedEntry cfg query, triggers := 0, disposed := false }

/-- The customRef `get` of one instance:
`cachedValue !== undefined ? cachedValue : toValue(defaultValue)`. -/
def instGet {T : Type} (inst : Inst T) : Option T :=
  match inst.st.cachedValue with
  | some v => some v
  | none => inst.cfg.defaultValue

/-- `get` on instance `i` of a world (`none` for an invalid index). -/
def worldGet {T : Type} (w : World T) (i : Nat) : Option T :=
  match w.insts.get? i with
  | some inst => instGet inst
  | none => none

/-- The notification count of instance `i` (0 for an invalid index). -/
def worldTriggers {T : Type} (w : World T) (i : Nat) : Nat :=
  match w.insts.get? i with
  | some inst => inst.triggers
  | none => 0

/-- The customRef `set` of instance `i`: compute
`newQueryRawValue = transformToQuery(newValue)`; if
`areQueryValuesEqual(newQueryRawValue, cachedRawValue)`, return without
doing anything; otherwise update both cache fields, upsert
`(name, newQueryRawValue)` into the shared `queriesQueue`, fire
`trigger()`, and schedule a `nextTick` flush callback (every non-gated
`set` calls `nextTick`; the callback is appended to the FIFO tick
queue). -/
def worldSet {T : Type} (w : World T) (i : Nat) (newValue : Option T) :
    World T :=
  match w.insts.get? i with
  | none => w
  | some inst =>
      let newQueryRawValue := inst.cfg.toRaw newValue
      if areQueryValuesEqual newQueryRawValue inst.st.cachedRawValue then w
      else
        { w with
          insts := w.insts.set i { inst with
            st := { cachedValue := newValue,
                    cachedRawValue := newQueryRawValue },
            triggers := inst.triggers + 1 },
          queue := mapSet w.queue inst.cfg.name newQueryRawValue,
          scheduled := w.scheduled ++ [i] }

/-- One `nextTick` flush callback, scheduled by instance `i`'s `set`:
if `queriesQueue.size === 0`, return; otherwise build `newQueries` from
the current `route.query` with every pending entry overlaid, clear the
queue, and call `router[mode]` with the instance's own captured `mode`.
The router navigation is applied asynchronously by vue-router, so
`route.query` is not mutated within this tick. -/
def runTask {T : Type} (w : World T) (i : Nat) : World T :=
  if w.queue.isEmpty then w
  else
    match w.insts.get? i with
    | none => w
    | some inst =>
        { w with
          queue := [],
          commits := w.commits ++ [(inst.cfg.mode, overlay w.query w.queue)] }

/-- Run the scheduler tick: the pending `nextTick` callbacks run in
FIFO order of scheduling. -/
def runTick {T : Type} (w : World T) : World T :=
  List.foldl runTask { w with scheduled := [] } w.scheduled

/-- The `watch(() => route.query[name], ...)` reaction of instance `i`,
delivered with an external value `v` for its name: if the instance's
scope was disposed, the scope-bound watcher has been stopped by the
host reactivity system and nothing is delivered (spec boundary: disposal
cancels the subscription).  Otherwise: if
`areQueryValuesEqual(v, cachedRawValue)`, return; else set
`cachedRawValue = v`, set `cachedValue` to `transformFromQuery(v)` when
`v !== undefined` and to `undefined` otherwise, and fire the trigger. -/
def worldExternal {T : Type} (w : World T) (i : Nat) (v : RawValue) :
    World T :=
  match w.insts.get? i with
  | none => w
  | some inst =>
      if inst.disposed then w
      else if areQueryValuesEqual v inst.st.cachedRawValue then w
      else
        { w with
          insts := w.insts.set i { inst with
            st := { cachedValue :=
                      if v = absent then none else inst.cfg.fromRaw v,
                    cachedRawValue := v },
            triggers := inst.triggers + 1 } }

/-- The `tryOnScopeDispose` callback of instance `i`:
`cachedValue = undefined; cachedRawValue = undefined`, and the scope
teardown also stops the instance's watcher. -/
def worldDispose {T : Type} (w : World T) (i : Nat) : World T :=
  match w.insts.get? i with
  | none => w
  | some inst =>
      { w with
        insts := w.insts.set i { inst with
          st := { cachedValue := none, cachedRawValue := absent },
          disposed := true } }

theorem qlookup_mapSet_self (m : List (String × RawValue)) (k : String)
    (v : RawValue) : qlookup (mapSet m k v) k = some v := by
  induction m with
  | nil => simp [mapSet, qlookup]
  | cons p rest ih =>
      obtain ⟨a, u⟩ := p
      by_cases h : a = k
      · simp [mapSet, qlookup, h]
      · have hb : (a == k) = false := by simp [h]
        simp [mapSet, qlookup, hb, ih]

theorem qlookup_mapSet_ne (m : List (String × RawValue)) (k k' : String)
    (v : RawValue) (h : k' ≠ k) :
    qlookup (mapSet m k v) k' = qlookup m k' := by
  induction m with
  | nil =>
      have hb : (k == k') = false := by simp [Ne.symm h]
      simp [mapSet, qlookup, hb]
  | cons p rest ih =>
      obtain ⟨a, u⟩ := p
      by_cases ha : a = k
      · subst ha
        have hb : (a == k') = false := by simp [Ne.symm h]
        simp [mapSet, qlookup, hb]
      · have hb : (a == k) = false := by simp [ha]
        by_cases ha' : a = k'
        · subst ha'
          simp [mapSet, qlookup, hb]
        · have hb' : (a == k') = false := by simp [ha']
          simp [mapSet, qlookup, hb, hb', ih]

theorem mapSet_length_le (m : List (String × RawValue)) (k : String)
    (v : RawValue) : (mapSet m k v).length ≤ m.length + 1 := by
  induction m with
  | nil => simp [mapSet]
  | cons p rest ih =>
      obtain ⟨a, u⟩ := p
      by_cases h : a = k
      · simp [mapSet, h]
      · have hb : (a == k) = false := by simp [h]
        simp only [mapSet, hb, Bool.false_eq_true, if_false, List.length_cons]
        omega

/-- A concrete identity-like configuration over `T = String`:
`toRaw` writes the string (or `null` for JS `undefined`), `fromRaw`
reads a string scalar back. -/
def strConfig (name : String) (d : Option String) (m : Mode) :
    SyncConfig String :=
  { name := name
    defaultValue := d
    mode := m
    fromRaw := fun v => match v with
      | .scalar (.str s) => some s
      | _ => none
    toRaw := fun x => match x with
      | some s => .scalar (.str s)
      | none => .scalar .null }

/-- Claim C1: if `areQueryValuesEqual(toRaw(x), cachedRawValue)` holds,
`set(x)` is a complete no-op (cache, notifications, queue and schedule
all unchanged); `set(x)` twice in a row equals `set(x)` once, so the
two calls enqueue at most one pending write and fire at most one
notification. -/
theorem c1_set_gate_and_idempotence (T : Type) (inst : Inst T)
    (rest : List (Inst T)) (q query : List (String × RawValue))
    (sch : List Nat) (c : List (Mode × List (String × RawValue)))
    (x : Option T) :
    (areQueryValuesEqual (inst.cfg.toRaw x) inst.st.cachedRawValue = true →
      worldSet (World.mk (inst :: rest) q query sch c) 0 x =
        World.mk (inst :: rest) q query sch c)
    ∧ worldSet (worldSet (World.mk (inst :: rest) q query sch c) 0 x) 0 x =
        worldSet (World.mk (inst :: rest) q query sch c) 0 x
    ∧ (worldSet (worldSet (World.mk (inst :: rest) q query sch c) 0 x) 0
        x).queue.length ≤ q.length + 1
    ∧ worldTriggers
        (worldSet (worldSet (World.mk (inst :: rest) q query sch c) 0 x) 0 x)
        0 ≤ worldTriggers (World.mk (inst :: rest) q query sch c) 0 + 1 := by
  by_cases hgate :
      areQueryValuesEqual (inst.cfg.toRaw x) inst.st.cachedRawValue = true
  · have hnoop : worldSet (World.mk (inst :: rest) q query sch c) 0 x =
        World.mk (inst :: rest) q query sch c := by
      simp [worldSet, List.get?, hgate]
    refine ⟨fun _ => hnoop, ?_, ?_, ?_⟩
    · rw [hnoop]; exact hnoop
    · rw [hnoop, hnoop]; exact Nat.le_succ_of_le (Nat.le_refl _)
    · rw [hnoop, hnoop]; exact Nat.le_succ_of_le (Nat.le_refl _)
  · have hgate' :
        areQueryValuesEqual (inst.cfg.toRaw x) inst.st.cachedRawValue =
          false := by
      exact Bool.eq_false_iff.mpr (fun hc => hgate hc)
    have hone : worldSet (World.mk (inst :: rest) q query sch c) 0 x =
        World.mk
          ({ inst with
              st := { cachedValue := x,
                      cachedRawValue := inst.cfg.toRaw x },
              triggers := inst.triggers + 1 } :: rest)
          (mapSet q inst.cfg.name (inst.cfg.toRaw x)) query (sch ++ [0]) c := by
      simp [worldSet, List.get?, hgate']
    have hidem :
        worldSet (worldSet (World.mk (inst :: rest) q query sch c) 0 x) 0 x =
          worldSet (World.mk (inst :: rest) q query sch c) 0 x := by
      rw [hone]
      simp [worldSet, List.get?, areQueryValuesEqual_refl]
    refine ⟨fun hc => absurd hc hgate, hidem, ?_, ?_⟩
    · rw [hidem, hone]
      exact mapSet_length_le q inst.cfg.name (inst.cfg.toRaw x)
    · rw [hidem, hone]
      simp [worldTriggers, List.get?]

/-- Witness for C1: a fresh `"page"` field, `set "1"` twice from an
absent baseline; the gate hypothesis of the first conjunct is
discharged on a world whose cache already holds the written raw
value. -/
theorem c1_set_gate_and_idempotence_witness :
    (worldSet
      (World.mk
        [⟨strConfig "page" (some "1") .push,
          ⟨some "1", .scalar (.str "1")⟩, 0, false⟩] [] [] [] [])
      0 (some "1") =
      World.mk
        [⟨strConfig "page" (some "1") .push,
          ⟨some "1", .scalar (.str "1")⟩, 0, false⟩] [] [] [] [])
    ∧ worldSet
        (worldSet
          (World.mk [⟨strConfig "page" none .push, ⟨none, absent⟩, 0, false⟩]
            [] [] [] []) 0 (some "2")) 0 (some "2") =
      worldSet
        (World.mk [⟨strConfig "page" none .push, ⟨none, absent⟩, 0, false⟩]
          [] [] [] []) 0 (some "2") :=
  ⟨(c1_set_gate_and_idempotence String
      ⟨strConfig "page" (some "1") .push,
        ⟨some "1", .scalar (.str "1")⟩, 0, false⟩ [] [] [] [] []
      (some "1")).1 (by decide),
   (c1_set_gate_and_idempotence String
      ⟨strConfig "page" none .push, ⟨none, absent⟩, 0, false⟩ [] [] [] [] []
      (some "2")).2.1⟩

/-- A configuration whose `toRaw` normalizes its raw representation
(folding `"A"` to `"a"`), so two distinct typed values map to the same
raw value — the situation the library's raw-value cache exists for. -/
def lowerConfig : SyncConfig String :=
  { name := "q"
    defaultValue := some "dflt"
    mode := .push
    fromRaw := fun v => match v with
      | .scalar (.str s) => some s
      | _ => none
    toRaw := fun x => match x with
      | some s => .scalar (.str (if s = "A" then "a" else s))
      | none => .scalar .null }

/-- A world holding one `lowerConfig` instance whose cache records a
previous `set "A"` (typed `"A"`, raw `"a"`). -/
def lowerWorld : World String :=
  World.mk [⟨lowerConfig, ⟨some "A", .scalar (.str "a")⟩, 1, false⟩]
    [] [] [] []

/-- Counterexample to C2 as stated: with a lower-casing `toRaw` and a
cache holding typed `"A"` / raw `"a"`, `set "a"` is suppressed by the
equality gate (`toRaw "a" = "a" = cachedRawValue`), and `get()` then
returns the previously cached `"A"`, not the written `"a"`. -/
theorem c2_counterexample :
    worldGet (worldSet lowerWorld 0 (some "a")) 0 = some "A"
    ∧ worldGet (worldSet lowerWorld 0 (some "a")) 0 ≠ some "a" := by
  constructor
  · decide
  · decide

/-- Claim C2, amended: after a `set(x)` whose new raw value differs
from `cachedRawValue` (so the equality gate passes) with `x` a defined
value, `get()` returns exactly `x` — the typed value, not a
retransformed one — and no commit to the store has happened yet (the
flush is still only scheduled).  A gated `set` instead keeps the
previously cached typed value visible. -/
theorem c2_read_after_write_amended (T : Type) (inst : Inst T)
    (rest : List (Inst T)) (q query : List (String × RawValue))
    (sch : List Nat) (c : List (Mode × List (String × RawValue)))
    (x : T)
    (h : areQueryValuesEqual (inst.cfg.toRaw (some x))
      inst.st.cachedRawValue = false) :
    worldGet (worldSet (World.mk (inst :: rest) q query sch c) 0 (some x)) 0 =
      some x
    ∧ (worldSet (World.mk (inst :: rest) q query sch c) 0 (some x)).commits =
      c := by
  constructor
  · simp [worldSet, h, worldGet, List.get?, instGet]
  · simp [worldSet, List.get?, h]

/-- Witness for C2 (amended): writing `"B"` over a cache at raw `"a"`
passes the gate and is immediately readable as `"B"`, with no commit
performed. -/
theorem c2_read_after_write_amended_witness :
    worldGet (worldSet lowerWorld 0 (some "B")) 0 = some "B"
    ∧ (worldSet lowerWorld 0 (some "B")).commits = [] :=
  c2_read_after_write_amended String
    ⟨lowerConfig, ⟨some "A", .scalar (.str "a")⟩, 1, false⟩ [] [] [] [] []
    "B" (by decide)

/-- Claim C10: an instance constructed while its name is absent from
the query starts with `cachedValue = undefined` and
`cachedRawValue = undefined`; for any `x` with
`transformToQuery(x) === undefined`, `set(x)` is a complete silent
no-op (the gate compares `undefined` with `undefined`), `get()` keeps
returning the default, and running the tick commits nothing. -/
theorem c10_absent_undefined_noop (T : Type) (cfg : SyncConfig T)
    (query : List (String × RawValue)) (rest : List (Inst T))
    (hq : qlookup query cfg.name = none)
    (x : Option T) (hx : cfg.toRaw x = absent) :
    worldSet (World.mk (mkInst cfg query :: rest) [] query [] []) 0 x =
      World.mk (mkInst cfg query :: rest) [] query [] []
    ∧ worldGet (World.mk (mkInst cfg query :: rest) [] query [] []) 0 =
      cfg.defaultValue
    ∧ runTick (World.mk (mkInst cfg query :: rest) [] query [] []) =
      World.mk (mkInst cfg query :: rest) [] query [] [] := by
  have hseed : seedEntry cfg query =
      { cachedValue := none, cachedRawValue := absent } := by
    simp [seedEntry, hq]
  refine ⟨?_, ?_, rfl⟩
  · simp [worldSet, List.get?, mkInst, hseed, hx, areQueryValuesEqual_refl]
  · simp [worldGet, List.get?, instGet, mkInst, hseed]

/-- A concrete configuration for field `"q"` whose `toRaw` maps JS
`undefined` to the absent marker (the transform leaves `undefined`
untouched). -/
def c10Config : SyncConfig String :=
  { name := "q"
    defaultValue := some "d"
    mode := .push
    fromRaw := fun v => match v with
      | .scalar (.str s) => some s
      | _ => none
    toRaw := fun x => match x with
      | some s => .scalar (.str s)
      | none => absent }

/-- Witness for C10: the field `"q"` is absent from `{other: "1"}` and
`set(undefined)` (whose raw form is `undefined`) changes nothing while
`get()` stays at the default. -/
theorem c10_absent_undefined_noop_witness :
    worldSet
      (World.mk [mkInst c10Config [("other", .scalar (.str "1"))]]
        [] [("other", .scalar (.str "1"))] [] []) 0 none =
      World.mk [mkInst c10Config [("other", .scalar (.str "1"))]]
        [] [("other", .scalar (.str "1"))] [] []
    ∧ worldGet
        (World.mk [mkInst c10Config [("other", .scalar (.str "1"))]]
          [] [("other", .scalar (.str "1"))] [] []) 0 = some "d" := by
  have h := c10_absent_undefined_noop String c10Config
    [("other", .scalar (.str "1"))] [] (by decide) none rfl
  exact ⟨h.1, h.2.1⟩

/-- Claim C5: the external-change reaction never enqueues a write: for
every instance index and every delivered external value, the shared
pending-write queue, the scheduled flush callbacks and the commit log
are all left exactly as they were — the reaction receives state, it
never produces a store write. -/
theorem c5_external_never_enqueues (T : Type) (w : World T) (i : Nat)
    (v : RawValue) :
    (worldExternal w i v).queue = w.queue
    ∧ (worldExternal w i v).scheduled = w.scheduled
    ∧ (worldExternal w i v).commits = w.commits := by
  unfold worldExternal
  split
  · exact ⟨rfl, rfl, rfl⟩
  · split
    · exact ⟨rfl, rfl, rfl⟩
    · split
      · exact ⟨rfl, rfl, rfl⟩
      · exact ⟨rfl, rfl, rfl⟩

/-- Claim C8: disposal resets the cache — `cachedValue` becomes the
UNSET sentinel (`undefined`) and `cachedRawValue` the absent marker —
so every subsequent `get()` returns the configured default regardless
of what was cached before; and because the scope teardown also stops
the scope-bound watcher, a subsequent external change to the same field
delivers nothing through the disposed instance (no cache change, no
notification). -/
theorem c8_disposal (T : Type) (inst : Inst T) (rest : List (Inst T))
    (q query : List (String × RawValue)) (sch : List Nat)
    (c : List (Mode × List (String × RawValue))) :
    (worldDispose (World.mk (inst :: rest) q query sch c) 0).insts =
      { inst with
        st := { cachedValue := none, cachedRawValue := absent },
        disposed := true } :: rest
    ∧ worldGet (worldDispose (World.mk (inst :: rest) q query sch c) 0) 0 =
      inst.cfg.defaultValue
    ∧ ∀ v : RawValue,
        worldExternal
          (worldDispose (World.mk (inst :: rest) q query sch c) 0) 0 v =
        worldDispose (World.mk (inst :: rest) q query sch c) 0 := by
  refine ⟨?_, ?_, ?_⟩
  · simp [worldDispose, List.get?]
  · simp [worldDispose, List.get?, worldGet, instGet]
  · intro v
    simp [worldDispose, List.get?, worldExternal]

/-- A world with one instance of an identity-like transform over a
field currently absent, with a configured default `"dflt"`. -/
def c9World : World String :=
  World.mk [⟨strConfig "f" (some "dflt") .push, ⟨none, absent⟩, 0, false⟩]
    [] [] [] []

/-- Counterexample to C9 as stated: the code's UNSET sentinel is JS
`undefined` itself (`cachedValue !== undefined`), so it is not distinct
from the legal typed value `undefined`.  Writing typed `undefined`
(raw `null`, so the gate passes and the write is accepted) leaves the
cache in exactly the UNSET representation, and `get()` returns the
configured default both before and after — the two states are
indistinguishable. -/
theorem c9_counterexample :
    ((worldSet c9World 0 none).insts.map fun i => i.st.cachedValue) =
      [(none : Option String)]
    ∧ worldGet (worldSet c9World 0 none) 0 = some "dflt"
    ∧ worldGet c9World 0 = some "dflt" := by
  decide

/-- Claim C9, amended: the UNSET sentinel is the JS value `undefined`
itself.  It is distinct from `null` and from every defined TypedValue —
a cache holding `some x` makes `get()` return exactly `x`, never the
default — but a cache holding the legal typed value `undefined` is the
fall-back state itself, and `get()` then returns the configured
default. -/
theorem c9_unset_sentinel_amended (T : Type) (cfg : SyncConfig T)
    (r : RawValue) (t : Nat) (d : Bool) (x : T) :
    instGet ⟨cfg, ⟨some x, r⟩, t, d⟩ = some x
    ∧ instGet ⟨cfg, ⟨none, r⟩, t, d⟩ = cfg.defaultValue :=
  ⟨rfl, rfl⟩

theorem twoSet_compute (T : Type) (c0 c1 : SyncConfig T)
    (s0 s1 : SyncEntry T) (t0 t1 : Nat)
    (query : List (String × RawValue))
    (cs : List (Mode × List (String × RawValue)))
    (x y : Option T)
    (hn : (c0.name == c1.name) = false)
    (h0 : areQueryValuesEqual (c0.toRaw x) s0.cachedRawValue = false)
    (h1 : areQueryValuesEqual (c1.toRaw y) s1.cachedRawValue = false) :
    worldSet
      (worldSet
        (World.mk [⟨c0, s0, t0, false⟩, ⟨c1, s1, t1, false⟩] [] query [] cs)
        0 x) 1 y =
      World.mk
        [⟨c0, ⟨x, c0.toRaw x⟩, t0 + 1, false⟩,
         ⟨c1, ⟨y, c1.toRaw y⟩, t1 + 1, false⟩]
        [(c0.name, c0.toRaw x), (c1.name, c1.toRaw y)]
        query [0, 1] cs := by
  have hstep1 :
      worldSet
        (World.mk [⟨c0, s0, t0, false⟩, ⟨c1, s1, t1, false⟩] [] query [] cs)
        0 x =
      World.mk
        [⟨c0, ⟨x, c0.toRaw x⟩, t0 + 1, false⟩, ⟨c1, s1, t1, false⟩]
        [(c0.name, c0.toRaw x)] query [0] cs := by
    simp [worldSet, List.get?, h0, mapSet]
  rw [hstep1]
  simp [worldSet, List.get?, List.set, h1, mapSet, hn]

theorem twoSet_tick (T : Type) (c0 c1 : SyncConfig T) (e0 e1 : SyncEntry T)
    (t0 t1 : Nat) (query : List (String × RawValue))
    (cs : List (Mode × List (String × RawValue))) (p0 p1 : RawValue) :
    runTick
      (World.mk [⟨c0, e0, t0, false⟩, ⟨c1, e1, t1, false⟩]
        [(c0.name, p0), (c1.name, p1)] query [0, 1] cs) =
      World.mk [⟨c0, e0, t0, false⟩, ⟨c1, e1, t1, false⟩]
        [] query []
        (cs ++ [(c0.mode, overlay query [(c0.name, p0), (c1.name, p1)])]) := by
  simp [runTick, List.foldl, runTask, List.get?, List.isEmpty]

/-- Claim C3: two synchronizers sharing one store each write a changed
value within one tick; running the tick performs exactly one commit,
whose document is the store's current query snapshot with every pending
`(name, rawValue)` pair overlaid — both written fields appear with
their written raw values, every other query field keeps its current
value — and the shared pending set is left cleared. -/
theorem c3_coalescing (T : Type) (c0 c1 : SyncConfig T)
    (s0 s1 : SyncEntry T) (t0 t1 : Nat)
    (query : List (String × RawValue))
    (cs : List (Mode × List (String × RawValue)))
    (x y : Option T)
    (hn : c0.name ≠ c1.name)
    (h0 : areQueryValuesEqual (c0.toRaw x) s0.cachedRawValue = false)
    (h1 : areQueryValuesEqual (c1.toRaw y) s1.cachedRawValue = false) :
    (runTick (worldSet (worldSet
        (World.mk [⟨c0, s0, t0, false⟩, ⟨c1, s1, t1, false⟩] [] query [] cs)
        0 x) 1 y)).commits =
      cs ++ [(c0.mode,
        overlay query [(c0.name, c0.toRaw x), (c1.name, c1.toRaw y)])]
    ∧ (runTick (worldSet (worldSet
        (World.mk [⟨c0, s0, t0, false⟩, ⟨c1, s1, t1, false⟩] [] query [] cs)
        0 x) 1 y)).queue = []
    ∧ qlookup (overlay query [(c0.name, c0.toRaw x), (c1.name, c1.toRaw y)])
        c0.name = some (c0.toRaw x)
    ∧ qlookup (overlay query [(c0.name, c0.toRaw x), (c1.name, c1.toRaw y)])
        c1.name = some (c1.toRaw y)
    ∧ ∀ k : String, k ≠ c0.name → k ≠ c1.name →
        qlookup (overlay query [(c0.name, c0.toRaw x), (c1.name, c1.toRaw y)])
          k = qlookup query k := by
  have hbeq : (c0.name == c1.name) = false := by simp [hn]
  rw [twoSet_compute T c0 c1 s0 s1 t0 t1 query cs x y hbeq h0 h1,
    twoSet_tick T c0 c1 ⟨x, c0.toRaw x⟩ ⟨y, c1.toRaw y⟩ (t0 + 1) (t1 + 1)
      query cs (c0.toRaw x) (c1.toRaw y)]
  refine ⟨rfl, rfl, ?_, ?_, ?_⟩
  · show qlookup (mapSet (mapSet query c0.name (c0.toRaw x)) c1.name
      (c1.toRaw y)) c0.name = some (c0.toRaw x)
    rw [qlookup_mapSet_ne _ _ _ _ hn, qlookup_mapSet_self]
  · show qlookup (mapSet (mapSet query c0.name (c0.toRaw x)) c1.name
      (c1.toRaw y)) c1.name = some (c1.toRaw y)
    rw [qlookup_mapSet_self]
  · intro k hk0 hk1
    show qlookup (mapSet (mapSet query c0.name (c0.toRaw x)) c1.name
      (c1.toRaw y)) k = qlookup query k
    rw [qlookup_mapSet_ne _ _ _ _ hk1, qlookup_mapSet_ne _ _ _ _ hk0]

/-- Witness for C3: fields `"pageA"` and `"pageB"` written over a store
whose query holds an untouched `"keep"` field. -/
theorem c3_coalescing_witness :
    (runTick (worldSet (worldSet
        (World.mk
          [⟨strConfig "pageA" none .push, ⟨none, absent⟩, 0, false⟩,
           ⟨strConfig "pageB" none .push, ⟨none, absent⟩, 0, false⟩]
          [] [("keep", .scalar (.str "v"))] [] [])
        0 (some "1")) 1 (some "2"))).commits =
      [(Mode.push,
        [("keep", .scalar (.str "v")),
         ("pageA", .scalar (.str "1")),
         ("pageB", .scalar (.str "2"))])]
    ∧ qlookup
        (overlay [("keep", .scalar (.str "v"))]
          [("pageA",
              (strConfig "pageA" none .push).toRaw (some "1")),
           ("pageB",
              (strConfig "pageB" none .push).toRaw (some "2"))])
        "keep" = some (.scalar (.str "v")) := by
  have h := c3_coalescing String
    (strConfig "pageA" none .push) (strConfig "pageB" none .push)
    ⟨none, absent⟩ ⟨none, absent⟩ 0 0
    [("keep", .scalar (.str "v"))] [] (some "1") (some "2")
    (by decide) (by decide) (by decide)
  refine ⟨?_, h.2.2.2.2 "keep" (by decide) (by decide)⟩
  rw [h.1]
  decide

/-- A two-instance world over an empty query, both fields absent, both
instances in `push` mode. -/
def c6World : World String :=
  World.mk
    [⟨strConfig "pageA" none .push, ⟨none, absent⟩, 0, false⟩,
     ⟨strConfig "pageB" none .push, ⟨none, absent⟩, 0, false⟩]
    [] [] [] []

/-- Counterexample to C6 as stated: every non-gated `set` calls
`nextTick`, so after two enqueues in the same tick two deferred
callbacks are scheduled, not one — the claim that subsequent enqueues
schedule no additional flush callbacks fails. -/
theorem c6_counterexample :
    (worldSet (worldSet c6World 0 (some "1")) 1 (some "2")).scheduled =
      [0, 1]
    ∧ (worldSet (worldSet c6World 0 (some "1")) 1
        (some "2")).scheduled.length ≠ 1 := by
  decide

/-- Claim C6, amended: each non-gated enqueue schedules its own
deferred callback (two enqueues leave two scheduled callbacks), but the
pending set is drained by the first callback to run and the rest no-op
on the empty set, so running the tick performs exactly one commit per
store. -/
theorem c6_flush_scheduling_amended (T : Type) (c0 c1 : SyncConfig T)
    (s0 s1 : SyncEntry T) (t0 t1 : Nat)
    (query : List (String × RawValue))
    (cs : List (Mode × List (String × RawValue)))
    (x y : Option T)
    (hn : c0.name ≠ c1.name)
    (h0 : areQueryValuesEqual (c0.toRaw x) s0.cachedRawValue = false)
    (h1 : areQueryValuesEqual (c1.toRaw y) s1.cachedRawValue = false) :
    (worldSet (worldSet
        (World.mk [⟨c0, s0, t0, false⟩, ⟨c1, s1, t1, false⟩] [] query [] cs)
        0 x) 1 y).scheduled = [0, 1]
    ∧ (runTick (worldSet (worldSet
        (World.mk [⟨c0, s0, t0, false⟩, ⟨c1, s1, t1, false⟩] [] query [] cs)
        0 x) 1 y)).commits.length = cs.length + 1
    ∧ (runTick (worldSet (worldSet
        (World.mk [⟨c0, s0, t0, false⟩, ⟨c1, s1, t1, false⟩] [] query [] cs)
        0 x) 1 y)).scheduled = [] := by
  have hbeq : (c0.name == c1.name) = false := by simp [hn]
  rw [twoSet_compute T c0 c1 s0 s1 t0 t1 query cs x y hbeq h0 h1,
    twoSet_tick T c0 c1 ⟨x, c0.toRaw x⟩ ⟨y, c1.toRaw y⟩ (t0 + 1) (t1 + 1)
      query cs (c0.toRaw x) (c1.toRaw y)]
  exact ⟨rfl, by simp, rfl⟩

/-- Witness for C6 (amended): the two concrete writes of `c6World`
leave two scheduled callbacks and running the tick yields exactly one
commit. -/
theorem c6_flush_scheduling_amended_witness :
    (worldSet (worldSet c6World 0 (some "1")) 1 (some "2")).scheduled =
      [0, 1]
    ∧ (runTick (worldSet (worldSet c6World 0 (some "1")) 1
        (some "2"))).commits.length = 0 + 1
    ∧ (runTick (worldSet (worldSet c6World 0 (some "1")) 1
        (some "2"))).scheduled = [] :=
  c6_flush_scheduling_amended String
    (strConfig "pageA" none .push) (strConfig "pageB" none .push)
    ⟨none, absent⟩ ⟨none, absent⟩ 0 0 [] [] (some "1") (some "2")
    (by decide) (by decide) (by decide)

/-- A two-instance world whose first instance uses `push` mode and
whose second uses `replace` mode. -/
def c7World : World String :=
  World.mk
    [⟨strConfig "pageA" none .push, ⟨none, absent⟩, 0, false⟩,
     ⟨strConfig "pageB" none .replace, ⟨none, absent⟩, 0, false⟩]
    [] [] [] []

/-- Counterexample to C7 as stated: instance 0 (`push`) enqueues first,
instance 1 (`replace`) enqueues last; the coalesced commit runs inside
the first scheduled callback and uses that closure's own `mode`, so it
commits with `push` — the mode of the first-enqueued write, not the
last-enqueued one the claim requires. -/
theorem c7_counterexample :
    ((runTick (worldSet (worldSet c7World 0 (some "1")) 1
        (some "2"))).commits.map Prod.fst) = [Mode.push]
    ∧ Mode.push ≠ Mode.replace := by
  decide

/-- Claim C7, amended: when synchronizers sharing one store enqueue
writes with different modes in the same tick, the single coalesced
commit uses the mode of the first-enqueued write (the first scheduled
callback performs the flush with its own captured mode; later callbacks
find the set empty), and the merged field contents are correct
regardless of the modes: both written fields appear with their written
raw values. -/
theorem c7_mode_resolution_amended (T : Type) (c0 c1 : SyncConfig T)
    (s0 s1 : SyncEntry T) (t0 t1 : Nat)
    (query : List (String × RawValue))
    (cs : List (Mode × List (String × RawValue)))
    (x y : Option T)
    (hn : c0.name ≠ c1.name)
    (h0 : areQueryValuesEqual (c0.toRaw x) s0.cachedRawValue = false)
    (h1 : areQueryValuesEqual (c1.toRaw y) s1.cachedRawValue = false) :
    ((runTick (worldSet (worldSet
        (World.mk [⟨c0, s0, t0, false⟩, ⟨c1, s1, t1, false⟩] [] query [] cs)
        0 x) 1 y)).commits.map Prod.fst) =
      cs.map Prod.fst ++ [c0.mode]
    ∧ qlookup (overlay query [(c0.name, c0.toRaw x), (c1.name, c1.toRaw y)])
        c0.name = some (c0.toRaw x)
    ∧ qlookup (overlay query [(c0.name, c0.toRaw x), (c1.name, c1.toRaw y)])
        c1.name = some (c1.toRaw y) := by
  have hbeq : (c0.name == c1.name) = false := by simp [hn]
  rw [twoSet_compute T c0 c1 s0 s1 t0 t1 query cs x y hbeq h0 h1,
    twoSet_tick T c0 c1 ⟨x, c0.toRaw x⟩ ⟨y, c1.toRaw y⟩ (t0 + 1) (t1 + 1)
      query cs (c0.toRaw x) (c1.toRaw y)]
  refine ⟨by simp, ?_, ?_⟩
  · show qlookup (mapSet (mapSet query c0.name (c0.toRaw x)) c1.name
      (c1.toRaw y)) c0.name = some (c0.toRaw x)
    rw [qlookup_mapSet_ne _ _ _ _ hn, qlookup_mapSet_self]
  · show qlookup (mapSet (mapSet query c0.name (c0.toRaw x)) c1.name
      (c1.toRaw y)) c1.name = some (c1.toRaw y)
    rw [qlookup_mapSet_self]

/-- Witness for C7 (amended): the mixed-mode world `c7World` commits
once with `push`, the first-enqueued mode, and both fields appear in
the merged document. -/
theorem c7_mode_resolution_amended_witness :
    ((runTick (worldSet (worldSet c7World 0 (some "1")) 1
        (some "2"))).commits.map Prod.fst) =
      List.map Prod.fst
        ([] : List (Mode × List (String × RawValue))) ++ [Mode.push]
    ∧ qlookup
        (overlay []
          [("pageA", (strConfig "pageA" none .push).toRaw (some "1")),
           ("pageB",
              (strConfig "pageB" none .replace).toRaw (some "2"))])
        "pageA" =
      some ((strConfig "pageA" none .push).toRaw (some "1"))
    ∧ qlookup
        (overlay []
          [("pageA", (strConfig "pageA" none .push).toRaw (some "1")),
           ("pageB",
              (strConfig "pageB" none .replace).toRaw (some "2"))])
        "pageB" =
      some ((strConfig "pageB" none .replace).toRaw (some "2")) :=
  c7_mode_resolution_amended String
    (strConfig "pageA" none .push) (strConfig "pageB" none .replace)
    ⟨none, absent⟩ ⟨none, absent⟩ 0 0 [] [] (some "1") (some "2")
    (by decide) (by decide) (by decide)

end UseRouteQuery
